import Mathlib

/-!
Verification of the sniffer repository's core pipeline against its
specification.  The Go source is shallowly embedded: Go maps become
functions into `Option`, mutation becomes explicit state passing, the
effectful steps of a refresh (reading `/proc`, netlink send/recv) become
explicit inputs carrying the outcomes the OS would produce.
-/

namespace Sniffer

/-! ## Data model (types.go portion of the source) -/

/-- Go `type Protocol string`; the zero value is the empty string. -/
abbrev Protocol := String

def ProtoTCP : Protocol := "tcp"

def ProtoUDP : Protocol := "udp"

/-- `RemoteSocket { IP string; Port uint16 }`. -/
structure RemoteSocket where
  IP : String
  Port : Nat
deriving DecidableEq, Repr

/-- `LocalSocket { IP string; Port uint16; Protocol Protocol }`. -/
structure LocalSocket where
  IP : String
  Port : Nat
  Protocol : Protocol
deriving DecidableEq, Repr

/-- `Connection { Local LocalSocket; Remote RemoteSocket }`. -/
structure Connection where
  Local : LocalSocket
  Remote : RemoteSocket
deriving DecidableEq, Repr

/-- `ProcessInfo { Pid int; Name string }`. -/
structure ProcessInfo where
  Pid : Int
  Name : String
deriving DecidableEq, Repr

/-- `func (p ProcessInfo) String() string { return fmt.Sprintf("<%d>:%s", p.Pid, p.Name) }`. -/
def ProcessInfo.string (p : ProcessInfo) : String :=
  "<" ++ toString p.Pid ++ ">:" ++ p.Name

inductive Direction where
  | Upload
  | Download
deriving DecidableEq, Repr

/-- `ConnectionInfo`: per-connection counters plus the data recorded at first
insertion (interface name and optional process). -/
structure ConnectionInfo where
  Interface : String
  UploadPackets : Nat
  DownloadPackets : Nat
  UploadBytes : Nat
  DownloadBytes : Nat
  Process : Option ProcessInfo
deriving DecidableEq, Repr

/-- `Segment`: one decoded packet's worth of flow identity and counts. -/
structure Segment where
  Interface : String
  DataLen : Nat
  Connection : Connection
  Direction : Direction
  Process : Option ProcessInfo
deriving DecidableEq, Repr

/-- A Go map, embedded as a function into `Option`. -/
def GoMap (κ α : Type) : Type := κ → Option α

/-- Go map assignment `m[key] = v`. -/
def mapUpdate {κ α : Type} [DecidableEq κ] (m : GoMap κ α) (key : κ) (v : α) : GoMap κ α :=
  fun x => if x = key then some v else m x

/-- The empty Go map (`make(...)`). -/
def emptyMap {κ α : Type} : GoMap κ α := fun _ => none

/-- `type Utilization map[Connection]*ConnectionInfo`. -/
abbrev Utilization := GoMap Connection ConnectionInfo

/-- `type OpenSockets map[LocalSocket]ProcessInfo`. -/
abbrev OpenSockets := GoMap LocalSocket ProcessInfo

/-! ## Sink (Sinker.Fetch / Sinker.GetUtilization) -/

/-- The body of `Sinker.Fetch` acting on the guarded `utilization` map:
insert-or-get keyed by the segment's connection (first insertion records the
interface and process), then bump the directional byte and packet counters. -/
def fetchU (u : Utilization) (seg : Segment) : Utilization :=
  let base : ConnectionInfo :=
    match u seg.Connection with
    | some info => info
    | none =>
        { Interface := seg.Interface, UploadPackets := 0, DownloadPackets := 0,
          UploadBytes := 0, DownloadBytes := 0, Process := seg.Process }
  let upd : ConnectionInfo :=
    match seg.Direction with
    | .Upload =>
        { base with UploadBytes := base.UploadBytes + seg.DataLen,
                    UploadPackets := base.UploadPackets + 1 }
    | .Download =>
        { base with DownloadBytes := base.DownloadBytes + seg.DataLen,
                    DownloadPackets := base.DownloadPackets + 1 }
  mapUpdate u seg.Connection upd

/-- `Sinker`: the mutex-guarded accumulator; the lock disappears in the
sequential embedding. -/
structure Sinker where
  utilization : Utilization

def NewSinker : Sinker := { utilization := emptyMap }

def Sinker.Fetch (c : Sinker) (seg : Segment) : Sinker :=
  { utilization := fetchU c.utilization seg }

/-- `GetUtilization` returns the current map and resets the sink to an empty
one (drain-on-read). -/
def Sinker.GetUtilization (c : Sinker) : Utilization × Sinker :=
  (c.utilization, { utilization := emptyMap })

/-! Spec-side measures used to state the window-counting claim: directional
byte sums and packet counts over a list of segments. -/

def uploadBytesFor : List Segment → Connection → Nat
  | [], _ => 0
  | s :: rest, conn =>
      (if s.Connection = conn ∧ s.Direction = .Upload then s.DataLen else 0) +
        uploadBytesFor rest conn

def uploadPacketsFor : List Segment → Connection → Nat
  | [], _ => 0
  | s :: rest, conn =>
      (if s.Connection = conn ∧ s.Direction = .Upload then 1 else 0) +
        uploadPacketsFor rest conn

def downloadBytesFor : List Segment → Connection → Nat
  | [], _ => 0
  | s :: rest, conn =>
      (if s.Connection = conn ∧ s.Direction = .Download then s.DataLen else 0) +
        downloadBytesFor rest conn

def downloadPacketsFor : List Segment → Connection → Nat
  | [], _ => 0
  | s :: rest, conn =>
      (if s.Connection = conn ∧ s.Direction = .Download then 1 else 0) +
        downloadPacketsFor rest conn

def optUploadBytes : Option ConnectionInfo → Nat
  | some i => i.UploadBytes
  | none => 0

def optUploadPackets : Option ConnectionInfo → Nat
  | some i => i.UploadPackets
  | none => 0

def optDownloadBytes : Option ConnectionInfo → Nat
  | some i => i.DownloadBytes
  | none => 0

def optDownloadPackets : Option ConnectionInfo → Nat
  | some i => i.DownloadPackets
  | none => 0

/-! ## Process monitor lookup (ProcessMonitor.GetProcess) -/

/-- The process monitor's guarded `socketMap` (a Go map). -/
abbrev SocketMapM := GoMap LocalSocket ProcessInfo

/-- `ProcessMonitor.GetProcess`: exact match, then the same port and protocol
with the IP replaced by "*", then "0.0.0.0", then "::"; `nil` when all miss. -/
def GetProcess (socketMap : SocketMapM) (socket : LocalSocket) : Option ProcessInfo :=
  match socketMap socket with
  | some p => some p
  | none =>
    match socketMap { socket with IP := "*" } with
    | some p => some p
    | none =>
      match socketMap { socket with IP := "0.0.0.0" } with
      | some p => some p
      | none => socketMap { socket with IP := "::" }

/-- Spec-side: the ordered list of keys the fallback ladder tries. -/
def ladderKeys (socket : LocalSocket) : List LocalSocket :=
  [socket, { socket with IP := "*" }, { socket with IP := "0.0.0.0" },
   { socket with IP := "::" }]

/-! ## Capture client and packet decoder (pcap_linux.go) -/

/-- A pcap device as the capture library reports it: its name and the textual
forms of the local addresses bound to it. -/
structure Device where
  name : String
  addresses : List String
deriving Repr

/-- The `bindIPs map[string]bool` built by `getAvailableDevices`: one
client-global map collecting the addresses of every matched device. -/
def buildBindIPs (devs : List Device) : String → Bool :=
  devs.foldl
    (fun acc d =>
      d.addresses.foldl (fun acc2 a => fun ip => if ip = a then true else acc2 ip) acc)
    (fun _ => false)

/-- The fields of `PcapClient` that `parsePacket` consumes. -/
structure PcapClientM where
  bindIPs : String → Bool
  disableDNSResolve : Bool
  lookup : String → String
  processMonitor : Option SocketMapM

/-- One decoded gopacket layer, as `listen` hands them to `parsePacket`:
an IP layer carries the textual source and destination addresses, an L4 layer
carries the ports and the lengths of its header bytes and payload. -/
inductive Layer where
  | ipv4 (srcIP dstIP : String)
  | ipv6 (srcIP dstIP : String)
  | tcp (srcPort dstPort : Nat) (contentsLen payloadLen : Nat)
  | udp (srcPort dstPort : Nat) (contentsLen payloadLen : Nat)

/-- The mutable locals of `parsePacket` before the switch on direction;
Go zero values throughout. -/
structure ParseState where
  srcPort : Nat
  dstPort : Nat
  srcIP : String
  dstIP : String
  protocol : Protocol
  dataLen : Nat
  direction : Direction

def initParseState : ParseState :=
  { srcPort := 0, dstPort := 0, srcIP := "", dstIP := "", protocol := "",
    dataLen := 0, direction := Direction.Download }

/-- One iteration of `parsePacket`'s loop over the decoded layers. -/
def parseLayer (c : PcapClientM) (st : ParseState) (l : Layer) : ParseState :=
  match l with
  | .ipv4 s d =>
      { st with srcIP := s, dstIP := d,
                direction := if c.bindIPs s then Direction.Upload else st.direction }
  | .ipv6 s d =>
      { st with srcIP := s, dstIP := d,
                direction := if c.bindIPs s then Direction.Upload else st.direction }
  | .tcp sp dp cl pl =>
      { st with protocol := ProtoTCP, srcPort := sp, dstPort := dp, dataLen := cl + pl }
  | .udp sp dp cl pl =>
      { st with protocol := ProtoUDP, srcPort := sp, dstPort := dp, dataLen := cl + pl }

/-- `PcapClient.parsePacket`: fold the decoded layers, drop the packet when no
L4 protocol was decoded, otherwise build the Segment; on Upload the local side
is (srcIP, srcPort), on Download the two sides are swapped; the remote IP goes
through `c.lookup` exactly when the protocol is TCP and DNS resolution is not
disabled; the process is looked up through the monitor when one is attached. -/
def parsePacket (c : PcapClientM) (device : String) (decoded : List Layer) : Option Segment :=
  let st := decoded.foldl (parseLayer c) initParseState
  if st.protocol = "" then none
  else
    match st.direction with
    | .Upload =>
        let remoteIP :=
          if st.protocol = ProtoTCP ∧ c.disableDNSResolve = false then c.lookup st.dstIP
          else st.dstIP
        let conn : Connection :=
          { Local := { IP := st.srcIP, Port := st.srcPort, Protocol := st.protocol },
            Remote := { IP := remoteIP, Port := st.dstPort } }
        some { Interface := device, DataLen := st.dataLen, Connection := conn,
               Direction := st.direction,
               Process := match c.processMonitor with
                          | some m => GetProcess m conn.Local
                          | none => none }
    | .Download =>
        let remoteIP :=
          if st.protocol = ProtoTCP ∧ c.disableDNSResolve = false then c.lookup st.srcIP
          else st.srcIP
        let conn : Connection :=
          { Local := { IP := st.dstIP, Port := st.dstPort, Protocol := st.protocol },
            Remote := { IP := remoteIP, Port := st.srcPort } }
        some { Interface := device, DataLen := st.dataLen, Connection := conn,
               Direction := st.direction,
               Process := match c.processMonitor with
                          | some m => GetProcess m conn.Local
                          | none => none }

/-- Modelled from the spec: the DNS resolver's `Lookup` (its code is the
out-of-scope resolver cache, absent from src/) returns the table's entry for
the address, and the input unchanged on a miss. -/
def dnsLookup (table : List (String × String)) (ip : String) : String :=
  match table.lookup ip with
  | some host => host
  | none => ip

/-! ## Netlink socket enumeration (conn_linux.go)

Bytes are `Nat`s below 256; time is a `Nat` count of seconds (the code works
in `time.Duration` with a 5-second constant). -/

/-- `be16.Int()`: the two port bytes arrive network byte order; on a
little-endian host the loaded value is swapped, on a big-endian host it is
read directly — either way the result is `hi*256 + lo`. -/
def be16Int (b : Nat × Nat) : Nat := b.1 * 256 + b.2

def AF_INET : Nat := 2

def AF_INET6 : Nat := 10

/-- `netlinkConn.ipv4`: `net.IPv4(a,b,c,d).String()`, the dotted quad. -/
def ipv4String (a b c d : Nat) : String :=
  toString a ++ "." ++ toString b ++ "." ++ toString c ++ "." ++ toString d

/-- 16 address bytes paired into 8 big-endian 16-bit groups. -/
def ipv6Groups : List Nat → List Nat
  | b0 :: b1 :: rest => (b0 * 256 + b1) :: ipv6Groups rest
  | _ => []

/-- For each position, the length of the zero-group run starting there. -/
def runLens : List Nat → List Nat
  | [] => []
  | gs@(_ :: rest) => (gs.takeWhile (fun x => x = 0)).length :: runLens rest

/-- The leftmost longest run of zero groups, as (start, length); Go's
`net.IP.String` only compresses runs of at least two groups. -/
def bestZeroRun (gs : List Nat) : Nat × Nat :=
  (runLens gs).enum.foldl (fun best p => if p.2 > best.2 then p else best) (0, 0)

/-- Lowercase hex of a 16-bit group without leading zeros. -/
def hexStr (n : Nat) : String := String.mk (Nat.toDigits 16 n)

def joinColon : List Nat → String
  | [] => ""
  | [g] => hexStr g
  | g :: rest => hexStr g ++ ":" ++ joinColon rest

def ipv6Compressed (gs : List Nat) : String :=
  let best := bestZeroRun gs
  if best.2 ≥ 2 then
    joinColon (gs.take best.1) ++ "::" ++ joinColon (gs.drop (best.1 + best.2))
  else joinColon gs

/-- `netlinkConn.ipv6` = `net.IP.String()` on the 16 bytes: an IPv4-mapped
address prints as a dotted quad, otherwise lowercase hex groups with the
leftmost longest zero run (of length at least two) compressed to `::`. -/
def ipv6String (bytes : List Nat) : String :=
  if bytes.take 10 = [0, 0, 0, 0, 0, 0, 0, 0, 0, 0] ∧
      bytes.getD 10 0 = 255 ∧ bytes.getD 11 0 = 255 then
    ipv4String (bytes.getD 12 0) (bytes.getD 13 0) (bytes.getD 14 0) (bytes.getD 15 0)
  else ipv6Compressed (ipv6Groups bytes)

/-- `netlinkConn.ipHex2String`: dotted quad for AF_INET (first four address
bytes), canonical IPv6 text for AF_INET6, an error otherwise. -/
def ipHex2String (family : Nat) (ip : List Nat) : Except String String :=
  if family = AF_INET then
    Except.ok (ipv4String (ip.getD 0 0) (ip.getD 1 0) (ip.getD 2 0) (ip.getD 3 0))
  else if family = AF_INET6 then Except.ok (ipv6String ip)
  else Except.error "family is not unix.AF_INET or unix.AF_INET6"

/-- One parsed `inetDiagMsg` record: its address family, the 16 source
address bytes of `IdiagSrc`, the two network-order source-port bytes, and the
socket's inode. -/
structure InetDiagMsgM where
  family : Nat
  src : List Nat
  sport : Nat × Nat
  inode : Nat
deriving DecidableEq, Repr

/-- Modelled from the spec: the sentinel name for an unresolved process
(`unknownProcessName` lives in the stats code, which is absent from src/);
the spec displays it as the literal `<UNKNOWN>`. -/
def unknownProcessName : String := "<UNKNOWN>"

/-- A cache line of `inodeCache` / `portCache`: `processCache` in the source. -/
structure ProcCache where
  info : ProcessInfo
  timestamp : Nat
deriving DecidableEq, Repr

abbrev InodeCache := GoMap Nat ProcCache

abbrev PortCache := GoMap Nat ProcCache

abbrev InodeMap := GoMap Nat ProcessInfo

def IPPROTO_TCP : Nat := 6

def IPPROTO_UDP : Nat := 17

/-- The `switch proto` of `sockdiagRecv`; the Go zero value of `Protocol` is
the empty string. -/
def protoLabel (proto : Nat) : Protocol :=
  if proto = IPPROTO_TCP then ProtoTCP
  else if proto = IPPROTO_UDP then ProtoUDP
  else ""

/-- `srcIP, _ := nl.ipHex2String(...)`: the error is discarded, leaving the
zero-value string on an unknown family. -/
def srcIPOf (m : InetDiagMsgM) : String :=
  match ipHex2String m.family m.src with
  | .ok s => s
  | .error _ => ""

/-- The `LocalSocket` key one diagnosis record produces. -/
def keyOf (proto : Nat) (m : InetDiagMsgM) : LocalSocket :=
  { IP := srcIPOf m, Port := be16Int m.sport, Protocol := protoLabel proto }

/-- The per-record body of `sockdiagRecv`'s loop: `inodeMap[m.IDiagInode]`
reads the Go zero value `ProcessInfo{0, ""}` on a miss, the record's socket is
always entered into the result map, and the port cache is written only when
the resolved name is non-empty and differs from the unknown sentinel. -/
def recvRecord (now : Nat) (im : InodeMap) (proto : Nat)
    (st : OpenSockets × PortCache) (m : InetDiagMsgM) : OpenSockets × PortCache :=
  let procInfo := (im m.inode).getD { Pid := 0, Name := "" }
  let sockets := mapUpdate st.1 (keyOf proto m) procInfo
  let cache :=
    if procInfo.Name ≠ "" ∧ procInfo.Name ≠ unknownProcessName then
      mapUpdate st.2 (be16Int m.sport) { info := procInfo, timestamp := now }
    else st.2
  (sockets, cache)

/-- One netlink message of a received batch: the `NLMSG_DONE` terminator or a
diagnosis record. -/
inductive NlMsg where
  | done
  | diag (m : InetDiagMsgM)

/-- One outcome of a `Recvmsg` call: a parsed batch of messages, a zero-byte
read, a receive error (e.g. the 200 ms timeout), or a
`ParseNetlinkMessage` failure. -/
inductive RecvEvent where
  | batch (msgs : List NlMsg)
  | zero
  | recvErr (e : String)
  | parseErr (e : String)

/-- The inner `for _, msg := range msgs` loop: process records in order until
`NLMSG_DONE`; the boolean reports whether the terminator was seen. -/
def recvBatch (now : Nat) (im : InodeMap) (proto : Nat) :
    OpenSockets × PortCache → List NlMsg → (OpenSockets × PortCache) × Bool
  | st, [] => (st, false)
  | st, .done :: _ => (st, true)
  | st, .diag m :: rest => recvBatch now im proto (recvRecord now im proto st m) rest

/-- `netlinkConn.sockdiagRecv`'s receive loop over the stream of recv
outcomes: a zero-byte read breaks the loop, errors return the sockets read so
far together with the error, `NLMSG_DONE` stops cleanly.  An exhausted event
list models the reader having stopped. -/
def sockdiagRecvLoop (now : Nat) (im : InodeMap) (proto : Nat) :
    OpenSockets × PortCache → List RecvEvent → (OpenSockets × PortCache) × Option String
  | st, [] => (st, none)
  | st, .zero :: _ => (st, none)
  | st, .recvErr e :: _ => (st, some e)
  | st, .parseErr e :: _ => (st, some e)
  | st, .batch msgs :: rest =>
      let r := recvBatch now im proto st msgs
      if r.2 then (r.1, none) else sockdiagRecvLoop now im proto r.1 rest

/-- `netlinkConn.sockdiagRecv`: starts from a fresh `sockets` map and the
connection's current port cache. -/
def sockdiagRecv (now : Nat) (im : InodeMap) (proto : Nat) (events : List RecvEvent)
    (pc : PortCache) : (OpenSockets × PortCache) × Option String :=
  sockdiagRecvLoop now im proto (emptyMap, pc) events

/-- What one diagnosis dump request produced: the protocol it was sent for
and the receive outcomes on its socket. -/
structure FdStream where
  proto : Nat
  events : List RecvEvent

/-- `for k, v := range m { sockets[k] = v }`. -/
def mergeMaps (base m : OpenSockets) : OpenSockets :=
  fun k => match m k with
  | some v => some v
  | none => base k

/-- The recv half of `getOpenSockets`: per request, recv then merge; a recv
error returns the sockets merged so far (the failing request's partial map is
dropped, its port-cache writes are kept, matching the in-place mutation). -/
def recvPhase (now : Nat) (im : InodeMap) :
    OpenSockets → PortCache → List FdStream → (OpenSockets × PortCache) × Option String
  | sockets, pc, [] => ((sockets, pc), none)
  | sockets, pc, fd :: rest =>
      let r := sockdiagRecv now im fd.proto fd.events pc
      match r.2 with
      | some e => ((sockets, r.1.2), some e)
      | none => recvPhase now im (mergeMaps sockets r.1.1) r.1.2 rest

/-- The first failing `sockdiagSend`, if any: the send loop returns on it. -/
def firstSendErr : List (Except String FdStream) → Option String
  | [] => none
  | .error e :: _ => some e
  | .ok _ :: rest => firstSendErr rest

/-- The streams of the requests whose send succeeded before any failure. -/
def okStreams : List (Except String FdStream) → List FdStream
  | [] => []
  | .error _ :: _ => []
  | .ok f :: rest => f :: okStreams rest

/-- `netlinkConn.getOpenSockets`: send one dump request per
(protocol, family) tuple — a send failure returns the error with the sockets
map still empty (Go returns a nil map the caller never reads) — then receive
and merge per request. -/
def getOpenSocketsM (now : Nat) (im : InodeMap) (pc : PortCache)
    (sends : List (Except String FdStream)) : (OpenSockets × PortCache) × Option String :=
  match firstSendErr sends with
  | some e => ((emptyMap, pc), some e)
  | none => recvPhase now im emptyMap pc (okStreams sends)

/-! ## Inode scanning and caches (getAllProcsInodes, getProcNameFallback) -/

/-- What scanning one PID under /proc yielded (`getProcInodes` on a PID that
did not fail): the resolved name and the socket inodes of its fds. -/
structure ScanResult where
  procInfo : ProcessInfo
  inodes : List Nat

/-- The 5-second TTL (`cacheTimeout`). -/
def cacheTimeout : Nat := 5

/-- The end-of-refresh sweep of `getAllProcsInodes`: drop every cache entry
aged at least the TTL. -/
def sweepCache (now : Nat) (cache : InodeCache) : InodeCache := fun i =>
  match cache i with
  | some c => if now - c.timestamp ≥ cacheTimeout then none else some c
  | none => none

/-- `netlinkConn.getAllProcsInodes`: pre-load inode→process entries from the
cache that are younger than the TTL, fold in the workers' scan results
(updating the cache with the current timestamp), then sweep cache entries
aged at least the TTL. -/
def getAllProcsInodes (now : Nat) (cache : InodeCache) (results : List ScanResult) :
    InodeMap × InodeCache :=
  let preloaded : InodeMap := fun i =>
    match cache i with
    | some c => if now - c.timestamp < cacheTimeout then some c.info else none
    | none => none
  let step := fun (st : InodeMap × InodeCache) (res : ScanResult) =>
    res.inodes.foldl
      (fun st2 inode =>
        (mapUpdate st2.1 inode res.procInfo,
         mapUpdate st2.2 inode { info := res.procInfo, timestamp := now }))
      st
  let scanned := results.foldl step (preloaded, cache)
  (scanned.1, sweepCache now scanned.2)

/-- `StatsManager.getProcNameFallback` on the fetcher's port cache: an entry
younger than 5 seconds prints as `<pid>:name`, anything else (a miss or an
aged entry) yields the empty string.  The nil-fetcher and failed
type-assertion guards of the source also yield the empty string and are
outside this embedding. -/
def getProcNameFallback (now : Nat) (portCache : PortCache) (socket : LocalSocket) : String :=
  match portCache socket.Port with
  | some cached =>
      if now - cached.timestamp < cacheTimeout then cached.info.string else ""
  | none => ""

/-! ## ProcessMonitor.RefreshProcesses (test_simple.go's monitor) -/

/-- `ProcessMonitor.RefreshProcesses`, with the effectful steps' outcomes as
inputs: a `listPids` failure leaves everything untouched; otherwise the inode
map is rebuilt (mutating the inode cache), the sockets are enumerated
(mutating the port cache), and only on overall success is the monitor's
`socketMap` replaced — wholly — by the freshly built map. -/
def RefreshProcesses (socketMap : SocketMapM) (now : Nat) (ic : InodeCache)
    (pc : PortCache) (pidsRes : Except String (List ScanResult))
    (sends : List (Except String FdStream)) :
    (SocketMapM × InodeCache × PortCache) × Option String :=
  match pidsRes with
  | .error e => ((socketMap, ic, pc), some e)
  | .ok results =>
      let scan := getAllProcsInodes now ic results
      let recv := getOpenSocketsM now scan.1 pc sends
      match recv.2 with
      | some e => ((socketMap, scan.2, recv.1.2), some e)
      | none => ((recv.1.1, scan.2, recv.1.2), none)

/-! ## Spec-side helper definitions used by the theorems -/

/-- The (interface, process) pair a `ConnectionInfo` carries. -/
def ifaceProc (i : ConnectionInfo) : String × Option ProcessInfo := (i.Interface, i.Process)

/-- The (interface, process) pair a `Segment` offers at insertion. -/
def segIfaceProc (s : Segment) : String × Option ProcessInfo := (s.Interface, s.Process)

/-- Left-biased choice on options, for stating first-insertion stability. -/
def optOr {α : Type} : Option α → Option α → Option α
  | some x, _ => some x
  | none, b => b

/-- An IP layer chosen by version, for quantifying over both. -/
def ipLayer (useV4 : Bool) (s d : String) : Layer :=
  if useV4 then Layer.ipv4 s d else Layer.ipv6 s d

/-- An L4 layer chosen by protocol, for quantifying over both. -/
def l4Layer (useTCP : Bool) (sp dp cl pl : Nat) : Layer :=
  if useTCP then Layer.tcp sp dp cl pl else Layer.udp sp dp cl pl

def protoOfBool (useTCP : Bool) : Protocol := if useTCP then ProtoTCP else ProtoUDP

/-- The two monitored devices of the C8 counterexample: the source IP
10.0.0.2 is bound to eth0 only. -/
def cexDevices : List Device :=
  [{ name := "eth0", addresses := ["10.0.0.2"] },
   { name := "eth1", addresses := ["10.0.0.3"] }]

/-- The socket map of the spec's wildcard-bound-listener scenario. -/
def nginxMap : SocketMapM := fun t =>
  if t = { IP := "0.0.0.0", Port := 8080, Protocol := ProtoTCP } then
    some { Pid := 7, Name := "nginx" }
  else none

/-- The records of one batch up to (excluding) `NLMSG_DONE`, and whether the
terminator was present. -/
def batchRecords : List NlMsg → List InetDiagMsgM × Bool
  | [] => ([], false)
  | .done :: _ => ([], true)
  | .diag m :: rest =>
      let r := batchRecords rest
      (m :: r.1, r.2)

/-- The diagnosis records the receive loop actually processes: those arriving
before a zero-byte read, an error, or the `NLMSG_DONE` terminator. -/
def processedRecords : List RecvEvent → List InetDiagMsgM
  | [] => []
  | .zero :: _ => []
  | .recvErr _ :: _ => []
  | .parseErr _ :: _ => []
  | .batch msgs :: rest =>
      let r := batchRecords msgs
      if r.2 then r.1 else r.1 ++ processedRecords rest

/-- A port cache free of empty and sentinel names. -/
def goodPortCache (pc : PortCache) : Prop :=
  ∀ port c, pc port = some c → c.info.Name ≠ "" ∧ c.info.Name ≠ unknownProcessName

/-- The port cache of the C5 scenario: the name "foo" recorded for port 5555
at time 0. -/
def cexPortCache : PortCache := fun p =>
  if p = 5555 then some { info := { Pid := 1, Name := "foo" }, timestamp := 0 } else none

/-- Diagnosis streams that terminate at once: each request's dump holds only
the `NLMSG_DONE` terminator. -/
def cexSends : List (Except String FdStream) :=
  [Except.ok { proto := IPPROTO_TCP, events := [RecvEvent.batch [NlMsg.done]] },
   Except.ok { proto := IPPROTO_UDP, events := [RecvEvent.batch [NlMsg.done]] }]

/-! ## Lemmas about the sink -/

theorem foldl_Fetch_utilization (segs : List Segment) :
    ∀ u : Utilization, (segs.foldl Sinker.Fetch ⟨u⟩).utilization = segs.foldl fetchU u := by
  induction segs with
  | nil => intro u; rfl
  | cons s rest ih => intro u; simpa [Sinker.Fetch] using ih (fetchU u s)

theorem fetchU_apply_ne (u : Utilization) (s : Segment) (conn : Connection)
    (h : ¬conn = s.Connection) : fetchU u s conn = u conn := by
  simp [fetchU, mapUpdate, h]

theorem optUploadBytes_fetchU (u : Utilization) (s : Segment) (conn : Connection) :
    optUploadBytes (fetchU u s conn) =
      optUploadBytes (u conn) +
        (if s.Connection = conn ∧ s.Direction = .Upload then s.DataLen else 0) := by
  by_cases hc : conn = s.Connection
  · subst hc
    cases hd : s.Direction <;> cases hu : u s.Connection <;>
      simp [fetchU, mapUpdate, optUploadBytes, hd, hu]
  · have hc2 : ¬(s.Connection = conn) := fun h => hc h.symm
    simp [fetchU_apply_ne u s conn hc, hc2]

theorem optUploadPackets_fetchU (u : Utilization) (s : Segment) (conn : Connection) :
    optUploadPackets (fetchU u s conn) =
      optUploadPackets (u conn) +
        (if s.Connection = conn ∧ s.Direction = .Upload then 1 else 0) := by
  by_cases hc : conn = s.Connection
  · subst hc
    cases hd : s.Direction <;> cases hu : u s.Connection <;>
      simp [fetchU, mapUpdate, optUploadPackets, hd, hu]
  · have hc2 : ¬(s.Connection = conn) := fun h => hc h.symm
    simp [fetchU_apply_ne u s conn hc, hc2]

theorem optDownloadBytes_fetchU (u : Utilization) (s : Segment) (conn : Connection) :
    optDownloadBytes (fetchU u s conn) =
      optDownloadBytes (u conn) +
        (if s.Connection = conn ∧ s.Direction = .Download then s.DataLen else 0) := by
  by_cases hc : conn = s.Connection
  · subst hc
    cases hd : s.Direction <;> cases hu : u s.Connection <;>
      simp [fetchU, mapUpdate, optDownloadBytes, hd, hu]
  · have hc2 : ¬(s.Connection = conn) := fun h => hc h.symm
    simp [fetchU_apply_ne u s conn hc, hc2]

theorem optDownloadPackets_fetchU (u : Utilization) (s : Segment) (conn : Connection) :
    optDownloadPackets (fetchU u s conn) =
      optDownloadPackets (u conn) +
        (if s.Connection = conn ∧ s.Direction = .Download then 1 else 0) := by
  by_cases hc : conn = s.Connection
  · subst hc
    cases hd : s.Direction <;> cases hu : u s.Connection <;>
      simp [fetchU, mapUpdate, optDownloadPackets, hd, hu]
  · have hc2 : ¬(s.Connection = conn) := fun h => hc h.symm
    simp [fetchU_apply_ne u s conn hc, hc2]

theorem optUploadBytes_foldl (segs : List Segment) :
    ∀ (u : Utilization) (conn : Connection),
      optUploadBytes ((segs.foldl fetchU u) conn) =
        optUploadBytes (u conn) + uploadBytesFor segs conn := by
  induction segs with
  | nil => intro u conn; simp [uploadBytesFor]
  | cons s rest ih =>
      intro u conn
      simp only [List.foldl_cons, uploadBytesFor]
      rw [ih, optUploadBytes_fetchU]
      omega

theorem optUploadPackets_foldl (segs : List Segment) :
    ∀ (u : Utilization) (conn : Connection),
      optUploadPackets ((segs.foldl fetchU u) conn) =
        optUploadPackets (u conn) + uploadPacketsFor segs conn := by
  induction segs with
  | nil => intro u conn; simp [uploadPacketsFor]
  | cons s rest ih =>
      intro u conn
      simp only [List.foldl_cons, uploadPacketsFor]
      rw [ih, optUploadPackets_fetchU]
      omega

theorem optDownloadBytes_foldl (segs : List Segment) :
    ∀ (u : Utilization) (conn : Connection),
      optDownloadBytes ((segs.foldl fetchU u) conn) =
        optDownloadBytes (u conn) + downloadBytesFor segs conn := by
  induction segs with
  | nil => intro u conn; simp [downloadBytesFor]
  | cons s rest ih =>
      intro u conn
      simp only [List.foldl_cons, downloadBytesFor]
      rw [ih, optDownloadBytes_fetchU]
      omega

theorem optDownloadPackets_foldl (segs : List Segment) :
    ∀ (u : Utilization) (conn : Connection),
      optDownloadPackets ((segs.foldl fetchU u) conn) =
        optDownloadPackets (u conn) + downloadPacketsFor segs conn := by
  induction segs with
  | nil => intro u conn; simp [downloadPacketsFor]
  | cons s rest ih =>
      intro u conn
      simp only [List.foldl_cons, downloadPacketsFor]
      rw [ih, optDownloadPackets_fetchU]
      omega

theorem isSome_fetchU (u : Utilization) (s : Segment) (conn : Connection) :
    (fetchU u s conn).isSome = true ↔ conn = s.Connection ∨ (u conn).isSome = true := by
  by_cases hc : conn = s.Connection
  · subst hc
    cases hd : s.Direction <;> cases hu : u s.Connection <;>
      simp [fetchU, mapUpdate, hd, hu]
  · simp [fetchU_apply_ne u s conn hc, hc]

theorem isSome_foldl (segs : List Segment) :
    ∀ (u : Utilization) (conn : Connection),
      ((segs.foldl fetchU u) conn).isSome = true ↔
        (u conn).isSome = true ∨ ∃ s ∈ segs, s.Connection = conn := by
  induction segs with
  | nil => intro u conn; simp
  | cons s rest ih =>
      intro u conn
      simp only [List.foldl_cons]
      rw [ih]
      rw [isSome_fetchU]
      constructor
      · rintro ((h | h) | ⟨t, ht, hc⟩)
        · exact Or.inr ⟨s, List.mem_cons_self s rest, h.symm⟩
        · exact Or.inl h
        · exact Or.inr ⟨t, List.mem_cons_of_mem s ht, hc⟩
      · rintro (h | ⟨t, ht, hc⟩)
        · exact Or.inl (Or.inr h)
        · rcases List.mem_cons.mp ht with h1 | h1
          · exact Or.inl (Or.inl (h1 ▸ hc).symm)
          · exact Or.inr ⟨t, h1, hc⟩

/-! ## Claim C1 -/

/-- C1: for a window of fetched segments, the drained utilisation carries,
per connection, upload bytes equal to the sum of `DataLen` over that
connection's Upload segments and upload packets equal to their count
(symmetrically for download, nothing counted twice); a connection appears in
the drained map exactly when some segment of the window mentions it; and a
second drain with no intervening fetch returns the empty map. -/
theorem C1_sinker_window_counts (segs : List Segment) (conn : Connection) :
    (optUploadBytes (((segs.foldl Sinker.Fetch NewSinker).GetUtilization).1 conn) =
        uploadBytesFor segs conn ∧
      optUploadPackets (((segs.foldl Sinker.Fetch NewSinker).GetUtilization).1 conn) =
        uploadPacketsFor segs conn ∧
      optDownloadBytes (((segs.foldl Sinker.Fetch NewSinker).GetUtilization).1 conn) =
        downloadBytesFor segs conn ∧
      optDownloadPackets (((segs.foldl Sinker.Fetch NewSinker).GetUtilization).1 conn) =
        downloadPacketsFor segs conn) ∧
    ((((segs.foldl Sinker.Fetch NewSinker).GetUtilization).1 conn).isSome = true ↔
      ∃ s ∈ segs, s.Connection = conn) ∧
    (((segs.foldl Sinker.Fetch NewSinker).GetUtilization).2.GetUtilization).1 =
      (emptyMap : Utilization) := by
  have hu : ((segs.foldl Sinker.Fetch NewSinker).GetUtilization).1 =
      segs.foldl fetchU emptyMap := by
    show (segs.foldl Sinker.Fetch ⟨emptyMap⟩).utilization = _
    exact foldl_Fetch_utilization segs emptyMap
  refine ⟨⟨?_, ?_, ?_, ?_⟩, ?_, rfl⟩
  · rw [hu, optUploadBytes_foldl]; simp [emptyMap, optUploadBytes]
  · rw [hu, optUploadPackets_foldl]; simp [emptyMap, optUploadPackets]
  · rw [hu, optDownloadBytes_foldl]; simp [emptyMap, optDownloadBytes]
  · rw [hu, optDownloadPackets_foldl]; simp [emptyMap, optDownloadPackets]
  · rw [hu, isSome_foldl]; simp [emptyMap]

/-! ## Claim C9: first-insertion stability of interface and process -/

theorem ifaceProc_fetchU (u : Utilization) (s : Segment) (conn : Connection) :
    ((fetchU u s) conn).map ifaceProc =
      optOr ((u conn).map ifaceProc)
        (if s.Connection = conn then some (segIfaceProc s) else none) := by
  by_cases hc : conn = s.Connection
  · subst hc
    cases hd : s.Direction <;> cases hu : u s.Connection <;>
      simp [fetchU, mapUpdate, ifaceProc, segIfaceProc, optOr, hd, hu]
  · have hc2 : ¬(s.Connection = conn) := fun h => hc h.symm
    cases hu : u conn <;> simp [fetchU_apply_ne u s conn hc, hc2, optOr, hu]

theorem ifaceProc_foldl (segs : List Segment) :
    ∀ (u : Utilization) (conn : Connection),
      ((segs.foldl fetchU u) conn).map ifaceProc =
        optOr ((u conn).map ifaceProc)
          ((segs.find? (fun t => t.Connection = conn)).map segIfaceProc) := by
  induction segs with
  | nil => intro u conn; cases hu : u conn <;> simp [optOr, hu]
  | cons s rest ih =>
      intro u conn
      simp only [List.foldl_cons]
      rw [ih, ifaceProc_fetchU]
      by_cases hc : s.Connection = conn
      · cases hu : u conn <;> simp [List.find?, hc, optOr, hu]
      · cases hu : u conn <;> simp [List.find?, hc, optOr, hu]

/-- C9: within one window the Interface and Process of a connection's
`ConnectionInfo` are those of the first segment inserted for that connection
(the drained value's pair equals the pair of the first matching segment), and
a later `Fetch` on an already-present connection leaves the stored pair
untouched — only the counters move. -/
theorem C9_first_insertion_stable (segs : List Segment) (conn : Connection)
    (u : Utilization) (s : Segment) :
    ((((segs.foldl Sinker.Fetch NewSinker).GetUtilization).1 conn).map ifaceProc =
        (segs.find? (fun t => t.Connection = conn)).map segIfaceProc) ∧
    ((u conn).isSome = true →
      ((fetchU u s) conn).map ifaceProc = (u conn).map ifaceProc) := by
  constructor
  · have hu : ((segs.foldl Sinker.Fetch NewSinker).GetUtilization).1 =
        segs.foldl fetchU emptyMap := by
      show (segs.foldl Sinker.Fetch ⟨emptyMap⟩).utilization = _
      exact foldl_Fetch_utilization segs emptyMap
    rw [hu, ifaceProc_foldl]
    simp [emptyMap, optOr]
  · intro h
    cases hu : u conn with
    | none => rw [hu] at h; simp at h
    | some i => rw [ifaceProc_fetchU, hu]; simp [optOr]

/-! ## Claims C2, C4, C8: the packet decoder -/

/-- C2: for every decoded TCP or UDP packet (an IP layer followed by an L4
layer, as `listen` hands them over; DNS resolution disabled so the raw remote
address is visible), the emitted segment's direction is Upload exactly when
the source IP is in the bound-IP set, the connection is
Local=(srcIP,srcPort,proto), Remote=(dstIP,dstPort) on Upload and the two
sides swapped on Download, and `DataLen` is the L4 header length plus the L4
payload length. -/
theorem C2_decoder_direction_connection (bIPs : String → Bool) (pm : Option SocketMapM)
    (dev s d : String) (useV4 useTCP : Bool) (sp dp cl pl : Nat) :
    ∃ seg : Segment,
      parsePacket { bindIPs := bIPs, disableDNSResolve := true, lookup := fun ip => ip,
                    processMonitor := pm } dev
          [ipLayer useV4 s d, l4Layer useTCP sp dp cl pl] = some seg ∧
      (seg.Direction = Direction.Upload ↔ bIPs s = true) ∧
      seg.DataLen = cl + pl ∧
      seg.Connection =
        (if bIPs s then
          { Local := { IP := s, Port := sp, Protocol := protoOfBool useTCP },
            Remote := { IP := d, Port := dp } }
        else
          { Local := { IP := d, Port := dp, Protocol := protoOfBool useTCP },
            Remote := { IP := s, Port := sp } }) := by
  cases hb : bIPs s <;> cases useV4 <;> cases useTCP <;>
    simp [parsePacket, parseLayer, initParseState, ipLayer, l4Layer, protoOfBool,
      ProtoTCP, ProtoUDP, hb]

/-- C4: the remote IP of an emitted segment passes through the DNS lookup
exactly when the protocol is TCP and resolution is enabled, and stays the raw
address for UDP or when resolution is disabled; the modelled resolver
(spec-modelled, see `dnsLookup`) returns its input unchanged on a miss. -/
theorem C4_dns_substitution (bIPs : String → Bool) (pm : Option SocketMapM)
    (table : List (String × String)) (disable : Bool) (dev s d : String)
    (useV4 useTCP : Bool) (sp dp cl pl : Nat) :
    ((parsePacket { bindIPs := bIPs, disableDNSResolve := disable,
                    lookup := dnsLookup table, processMonitor := pm } dev
        [ipLayer useV4 s d, l4Layer useTCP sp dp cl pl]).map
        (fun seg => seg.Connection.Remote.IP)) =
      some (if useTCP = true ∧ disable = false then
              dnsLookup table (if bIPs s then d else s)
            else (if bIPs s then d else s)) ∧
    (∀ ip : String, table.lookup ip = none → dnsLookup table ip = ip) := by
  constructor
  · cases hb : bIPs s <;> cases useV4 <;> cases useTCP <;> cases disable <;>
      simp [parsePacket, parseLayer, initParseState, ipLayer, l4Layer,
        ProtoTCP, ProtoUDP, hb]
  · intro ip h
    simp [dnsLookup, h]

/-- C8 counterexample: a frame read from eth1's handle whose source IP is
bound only to eth0 is still classified Upload, because the decoder consults
the client-global `bindIPs` set rather than a per-handle set. -/
theorem C8_global_bindips_cex :
    (∀ dv ∈ cexDevices, dv.name = "eth1" → ¬("10.0.0.2" ∈ dv.addresses)) ∧
    ((parsePacket { bindIPs := buildBindIPs cexDevices, disableDNSResolve := true,
                    lookup := fun ip => ip, processMonitor := none } "eth1"
        [Layer.ipv4 "10.0.0.2" "8.8.8.8", Layer.tcp 80 443 20 100]).map
        Segment.Direction = some Direction.Upload) := by
  constructor
  · decide
  · rfl

theorem foldIPs_mem (as : List String) :
    ∀ (acc : String → Bool) (s : String),
      (as.foldl (fun acc2 a => fun ip => if ip = a then true else acc2 ip) acc) s = true ↔
        s ∈ as ∨ acc s = true := by
  induction as with
  | nil => intro acc s; simp
  | cons a rest ih =>
      intro acc s
      simp only [List.foldl_cons]
      rw [ih]
      by_cases hs : s = a
      · subst hs; simp
      · simp [hs]

theorem buildBindIPs_fold (devs : List Device) :
    ∀ (acc : String → Bool) (s : String),
      (devs.foldl
          (fun acc d =>
            d.addresses.foldl (fun acc2 a => fun ip => if ip = a then true else acc2 ip) acc)
          acc) s = true ↔
        (∃ dv ∈ devs, s ∈ dv.addresses) ∨ acc s = true := by
  induction devs with
  | nil => intro acc s; simp
  | cons d rest ih =>
      intro acc s
      simp only [List.foldl_cons]
      rw [ih, foldIPs_mem]
      constructor
      · rintro (⟨dv, h1, h2⟩ | (h | h))
        · exact Or.inl ⟨dv, List.mem_cons_of_mem d h1, h2⟩
        · exact Or.inl ⟨d, List.mem_cons_self d rest, h⟩
        · exact Or.inr h
      · rintro (⟨dv, h1, h2⟩ | h)
        · rcases List.mem_cons.mp h1 with h3 | h3
          · exact Or.inr (Or.inl (h3 ▸ h2))
          · exact Or.inl ⟨dv, h3, h2⟩
        · exact Or.inr (Or.inr h)

theorem buildBindIPs_mem (devs : List Device) (s : String) :
    buildBindIPs devs s = true ↔ ∃ dv ∈ devs, s ∈ dv.addresses := by
  have h := buildBindIPs_fold devs (fun _ => false) s
  simpa [buildBindIPs] using h

/-- C8 amended: direction is assigned against the client-global set of local
addresses collected over ALL monitored devices — the same for every handle
(the handle argument only names the segment's interface), and a source IP is
classified Upload exactly when it is bound to any monitored device. -/
theorem C8_direction_global_set (devs : List Device) (lk : String → String)
    (disable : Bool) (pm : Option SocketMapM) (dev1 dev2 s d : String)
    (useV4 useTCP : Bool) (sp dp cl pl : Nat) :
    ((parsePacket { bindIPs := buildBindIPs devs, disableDNSResolve := disable,
                    lookup := lk, processMonitor := pm } dev1
        [ipLayer useV4 s d, l4Layer useTCP sp dp cl pl]).map Segment.Direction =
      (parsePacket { bindIPs := buildBindIPs devs, disableDNSResolve := disable,
                     lookup := lk, processMonitor := pm } dev2
        [ipLayer useV4 s d, l4Layer useTCP sp dp cl pl]).map Segment.Direction) ∧
    ((parsePacket { bindIPs := buildBindIPs devs, disableDNSResolve := disable,
                    lookup := lk, processMonitor := pm } dev1
        [ipLayer useV4 s d, l4Layer useTCP sp dp cl pl]).map Segment.Direction =
      some (if buildBindIPs devs s then Direction.Upload else Direction.Download)) ∧
    (buildBindIPs devs s = true ↔ ∃ dv ∈ devs, s ∈ dv.addresses) := by
  refine ⟨?_, ?_, buildBindIPs_mem devs s⟩
  · cases hb : buildBindIPs devs s <;> cases useV4 <;> cases useTCP <;> cases disable <;>
      simp [parsePacket, parseLayer, initParseState, ipLayer, l4Layer,
        ProtoTCP, ProtoUDP, hb]
  · cases hb : buildBindIPs devs s <;> cases useV4 <;> cases useTCP <;> cases disable <;>
      simp [parsePacket, parseLayer, initParseState, ipLayer, l4Layer,
        ProtoTCP, ProtoUDP, hb]

/-! ## Claim C3: the lookup fallback ladder -/

/-- C3: `GetProcess` is the first hit along the ladder
[exact, "*", "0.0.0.0", "::"] in that order, it returns `none` exactly when
all four keys miss, and the spec's scenario — a map holding
("0.0.0.0",8080,tcp)→nginx — resolves ("192.168.1.5",8080,tcp) to nginx. -/
theorem C3_lookup_fallback_ladder (m : SocketMapM) (socket : LocalSocket) :
    GetProcess m socket = (ladderKeys socket).findSome? m ∧
    (GetProcess m socket = none ↔ ∀ t ∈ ladderKeys socket, m t = none) ∧
    GetProcess nginxMap { IP := "192.168.1.5", Port := 8080, Protocol := ProtoTCP } =
      some { Pid := 7, Name := "nginx" } := by
  refine ⟨?_, ?_, by decide⟩
  · cases h1 : m socket <;> cases h2 : m { socket with IP := "*" } <;>
      cases h3 : m { socket with IP := "0.0.0.0" } <;>
      cases h4 : m { socket with IP := "::" } <;>
        simp [GetProcess, ladderKeys, List.findSome?, h1, h2, h3, h4]
  · cases h1 : m socket <;> cases h2 : m { socket with IP := "*" } <;>
      cases h3 : m { socket with IP := "0.0.0.0" } <;>
      cases h4 : m { socket with IP := "::" } <;>
        simp [GetProcess, ladderKeys, h1, h2, h3, h4]

/-! ## Claim C5: cache TTLs across a refresh -/

theorem sweepCache_fresh (now : Nat) (cache : InodeCache) (i : Nat) (c : ProcCache)
    (h : sweepCache now cache i = some c) : now - c.timestamp < cacheTimeout := by
  unfold sweepCache at h
  cases hc : cache i with
  | none => rw [hc] at h; cases h
  | some c0 =>
      rw [hc] at h
      dsimp only at h
      by_cases hage : now - c0.timestamp ≥ cacheTimeout
      · rw [if_pos hage] at h; cases h
      · rw [if_neg hage] at h
        cases h
        omega

theorem getAllProcsInodes_fresh (now : Nat) (cache : InodeCache)
    (results : List ScanResult) (i : Nat) (c : ProcCache)
    (h : (getAllProcsInodes now cache results).2 i = some c) :
    now - c.timestamp < cacheTimeout :=
  sweepCache_fresh now _ i c h

/-- C5 amended: after a refresh whose effectful steps all succeeded, every
inodeCache entry is younger than the 5-second TTL (the sweep ran), and a
port-fallback query against an entry aged at least 5 seconds returns the
empty (null) result.  The portCache itself is NOT swept by refresh — see the
counterexample — only its read path applies the TTL. -/
theorem C5_cache_expiry_amended (socketMap : SocketMapM) (now : Nat) (ic : InodeCache)
    (pc : PortCache) (pidsRes : Except String (List ScanResult))
    (sends : List (Except String FdStream)) (i : Nat) (c : ProcCache)
    (pc2 : PortCache) (socket : LocalSocket) (c2 : ProcCache)
    (hok : (RefreshProcesses socketMap now ic pc pidsRes sends).2 = none)
    (hc : (RefreshProcesses socketMap now ic pc pidsRes sends).1.2.1 i = some c)
    (hold : pc2 socket.Port = some c2) (hage : c2.timestamp + cacheTimeout ≤ now) :
    now - c.timestamp < cacheTimeout ∧ getProcNameFallback now pc2 socket = "" := by
  constructor
  · cases pidsRes with
    | error e => simp [RefreshProcesses] at hok
    | ok results =>
        have hcast : (RefreshProcesses socketMap now ic pc (Except.ok results) sends).1.2.1 =
            (getAllProcsInodes now ic results).2 := by
          unfold RefreshProcesses
          cases hrecv : (getOpenSocketsM now (getAllProcsInodes now ic results).1 pc sends).2 <;>
            simp [hrecv]
        rw [hcast] at hc
        exact getAllProcsInodes_fresh now ic results i c hc
  · unfold getProcNameFallback
    rw [hold]
    dsimp only
    rw [if_neg (by omega)]

/-- C5 counterexample: a portCache entry aged 6 s ≥ 5 s is still present after
a refresh completes successfully — the refresh never sweeps the port cache,
contradicting the claim that aged entries of both caches are absent. -/
theorem C5_portcache_persists_cex :
    ((RefreshProcesses emptyMap 6 emptyMap cexPortCache (Except.ok []) cexSends).2 = none) ∧
    ((RefreshProcesses emptyMap 6 emptyMap cexPortCache (Except.ok []) cexSends).1.2.2 5555 =
      some { info := { Pid := 1, Name := "foo" }, timestamp := 0 }) ∧
    6 - (0 : Nat) ≥ cacheTimeout := by
  refine ⟨rfl, rfl, by decide⟩

theorem C5_cache_expiry_amended_witness :
    6 - (6 : Nat) < cacheTimeout ∧
      getProcNameFallback 6 cexPortCache
        { IP := "10.0.0.2", Port := 5555, Protocol := ProtoTCP } = "" :=
  C5_cache_expiry_amended emptyMap 6 emptyMap cexPortCache
    (Except.ok [{ procInfo := { Pid := 2, Name := "bar" }, inodes := [99] }]) cexSends
    99 { info := { Pid := 2, Name := "bar" }, timestamp := 6 } cexPortCache
    { IP := "10.0.0.2", Port := 5555, Protocol := ProtoTCP }
    { info := { Pid := 1, Name := "foo" }, timestamp := 0 }
    rfl rfl rfl (by decide)

/-! ## Claim C6: the port-cache write condition -/

theorem recvRecord_good (now : Nat) (im : InodeMap) (proto : Nat)
    (st : OpenSockets × PortCache) (m : InetDiagMsgM) (h : goodPortCache st.2) :
    goodPortCache (recvRecord now im proto st m).2 := by
  intro port c hc
  dsimp [recvRecord] at hc
  split at hc
  · unfold mapUpdate at hc
    split at hc
    · cases hc
      rename_i hcond _
      exact hcond
    · exact h port c hc
  · exact h port c hc

theorem recvBatch_good (now : Nat) (im : InodeMap) (proto : Nat) (msgs : List NlMsg) :
    ∀ st : OpenSockets × PortCache, goodPortCache st.2 →
      goodPortCache (recvBatch now im proto st msgs).1.2 := by
  induction msgs with
  | nil => intro st h; exact h
  | cons msg rest ih =>
      intro st h
      cases msg with
      | done => exact h
      | diag m => exact ih _ (recvRecord_good now im proto st m h)

theorem sockdiagRecvLoop_good (now : Nat) (im : InodeMap) (proto : Nat)
    (events : List RecvEvent) :
    ∀ st : OpenSockets × PortCache, goodPortCache st.2 →
      goodPortCache (sockdiagRecvLoop now im proto st events).1.2 := by
  induction events with
  | nil => intro st h; exact h
  | cons ev rest ih =>
      intro st h
      cases ev with
      | zero => exact h
      | recvErr e => exact h
      | parseErr e => exact h
      | batch msgs =>
          have hb := recvBatch_good now im proto msgs st h
          dsimp [sockdiagRecvLoop]
          by_cases hd : (recvBatch now im proto st msgs).2 = true
          · rw [if_pos hd]; exact hb
          · rw [if_neg hd]; exact ih _ hb

theorem sockdiagRecv_good (now : Nat) (im : InodeMap) (proto : Nat)
    (events : List RecvEvent) (pc : PortCache) (h : goodPortCache pc) :
    goodPortCache (sockdiagRecv now im proto events pc).1.2 :=
  sockdiagRecvLoop_good now im proto events (emptyMap, pc) h

theorem recvPhase_good (now : Nat) (im : InodeMap) (fds : List FdStream) :
    ∀ (sockets : OpenSockets) (pc : PortCache), goodPortCache pc →
      goodPortCache (recvPhase now im sockets pc fds).1.2 := by
  induction fds with
  | nil => intro sockets pc h; exact h
  | cons fd rest ih =>
      intro sockets pc h
      have hr := sockdiagRecv_good now im fd.proto fd.events pc h
      dsimp [recvPhase]
      cases hrecv : (sockdiagRecv now im fd.proto fd.events pc).2 with
      | some e => dsimp only; exact hr
      | none => dsimp only; exact ih _ _ hr

theorem getOpenSocketsM_good (now : Nat) (im : InodeMap) (pc : PortCache)
    (sends : List (Except String FdStream)) (h : goodPortCache pc) :
    goodPortCache (getOpenSocketsM now im pc sends).1.2 := by
  unfold getOpenSocketsM
  cases hs : firstSendErr sends with
  | some e => exact h
  | none => exact recvPhase_good now im (okStreams sends) emptyMap pc h

theorem RefreshProcesses_good (socketMap : SocketMapM) (now : Nat) (ic : InodeCache)
    (pc : PortCache) (pidsRes : Except String (List ScanResult))
    (sends : List (Except String FdStream)) (h : goodPortCache pc) :
    goodPortCache (RefreshProcesses socketMap now ic pc pidsRes sends).1.2.2 := by
  cases pidsRes with
  | error e => exact h
  | ok results =>
      have hg := getOpenSocketsM_good now (getAllProcsInodes now ic results).1 pc sends h
      unfold RefreshProcesses
      cases hrecv : (getOpenSocketsM now (getAllProcsInodes now ic results).1 pc sends).2 <;>
        simp [hrecv] <;> exact hg

/-- C6: processing a diagnosis record writes a portCache entry for the
record's port exactly when the resolved process name is non-empty and differs
from the unknown sentinel (otherwise the port's entry is untouched), other
ports are never touched, and consequently a port cache free of empty and
sentinel names stays so across an entire refresh. -/
theorem C6_portcache_write_condition (now : Nat) (im : InodeMap) (proto : Nat)
    (st : OpenSockets × PortCache) (m : InetDiagMsgM) (socketMap : SocketMapM)
    (ic : InodeCache) (pc : PortCache) (pidsRes : Except String (List ScanResult))
    (sends : List (Except String FdStream)) :
    ((recvRecord now im proto st m).2 (be16Int m.sport) =
      (if ((im m.inode).getD { Pid := 0, Name := "" }).Name ≠ "" ∧
          ((im m.inode).getD { Pid := 0, Name := "" }).Name ≠ unknownProcessName then
        some { info := (im m.inode).getD { Pid := 0, Name := "" }, timestamp := now }
      else st.2 (be16Int m.sport))) ∧
    (∀ q, ¬q = be16Int m.sport → (recvRecord now im proto st m).2 q = st.2 q) ∧
    (goodPortCache pc →
      goodPortCache (RefreshProcesses socketMap now ic pc pidsRes sends).1.2.2) := by
  refine ⟨?_, ?_, RefreshProcesses_good socketMap now ic pc pidsRes sends⟩
  · dsimp [recvRecord]
    split
    · simp [mapUpdate]
    · rfl
  · intro q hq
    dsimp [recvRecord]
    split
    · simp [mapUpdate, hq]
    · rfl

/-! ## Claim C7: whole-map replacement on refresh -/

/-- C7: a refresh either wholly replaces the monitor's socket map with the
freshly built one (when every step succeeded) or leaves the previous map
untouched (on a listPids failure, a send failure, or a recv failure — even
when the enumeration had already produced a partial map); it is never
partially mutated. -/
theorem C7_refresh_atomic (socketMap : SocketMapM) (now : Nat) (ic : InodeCache)
    (pc : PortCache) (pidsRes : Except String (List ScanResult))
    (sends : List (Except String FdStream)) :
    (∀ e, (RefreshProcesses socketMap now ic pc pidsRes sends).2 = some e →
        (RefreshProcesses socketMap now ic pc pidsRes sends).1.1 = socketMap) ∧
    ((RefreshProcesses socketMap now ic pc pidsRes sends).2 = none →
      ∀ results, pidsRes = Except.ok results →
        (RefreshProcesses socketMap now ic pc pidsRes sends).1.1 =
          (getOpenSocketsM now (getAllProcsInodes now ic results).1 pc sends).1.1) := by
  cases pidsRes with
  | error e =>
      refine ⟨fun _ _ => rfl, fun h => ?_⟩
      simp [RefreshProcesses] at h
  | ok results =>
      constructor
      · intro e he
        unfold RefreshProcesses at he ⊢
        cases hrecv : (getOpenSocketsM now (getAllProcsInodes now ic results).1 pc sends).2 with
        | some e2 => simp [hrecv]
        | none => simp [hrecv] at he
      · intro hnone results2 hres
        cases hres
        unfold RefreshProcesses at hnone ⊢
        cases hrecv : (getOpenSocketsM now (getAllProcsInodes now ic results).1 pc sends).2 with
        | some e2 => simp [hrecv] at hnone
        | none => simp [hrecv]

/-! ## Claim C10: every diagnosis record yields an entry -/

theorem recvRecord_key (now : Nat) (im : InodeMap) (proto : Nat)
    (st : OpenSockets × PortCache) (m : InetDiagMsgM) :
    (recvRecord now im proto st m).1 (keyOf proto m) =
      some ((im m.inode).getD { Pid := 0, Name := "" }) := by
  simp [recvRecord, mapUpdate]

theorem recvRecord_isSome_mono (now : Nat) (im : InodeMap) (proto : Nat)
    (st : OpenSockets × PortCache) (m : InetDiagMsgM) (k : LocalSocket)
    (h : (st.1 k).isSome = true) : ((recvRecord now im proto st m).1 k).isSome = true := by
  dsimp [recvRecord, mapUpdate]
  split <;> simp [h]

theorem recvBatch_isSome_mono (now : Nat) (im : InodeMap) (proto : Nat)
    (msgs : List NlMsg) :
    ∀ (st : OpenSockets × PortCache) (k : LocalSocket), (st.1 k).isSome = true →
      ((recvBatch now im proto st msgs).1.1 k).isSome = true := by
  induction msgs with
  | nil => intro st k h; exact h
  | cons msg rest ih =>
      intro st k h
      cases msg with
      | done => exact h
      | diag m => exact ih _ k (recvRecord_isSome_mono now im proto st m k h)

theorem sockdiagRecvLoop_isSome_mono (now : Nat) (im : InodeMap) (proto : Nat)
    (events : List RecvEvent) :
    ∀ (st : OpenSockets × PortCache) (k : LocalSocket), (st.1 k).isSome = true →
      ((sockdiagRecvLoop now im proto st events).1.1 k).isSome = true := by
  induction events with
  | nil => intro st k h; exact h
  | cons ev rest ih =>
      intro st k h
      cases ev with
      | zero => exact h
      | recvErr e => exact h
      | parseErr e => exact h
      | batch msgs =>
          have hb := recvBatch_isSome_mono now im proto msgs st k h
          dsimp [sockdiagRecvLoop]
          by_cases hd : (recvBatch now im proto st msgs).2 = true
          · rw [if_pos hd]; exact hb
          · rw [if_neg hd]; exact ih _ k hb

theorem recvBatch_mem (now : Nat) (im : InodeMap) (proto : Nat) (msgs : List NlMsg) :
    ∀ (st : OpenSockets × PortCache) (m : InetDiagMsgM), m ∈ (batchRecords msgs).1 →
      ((recvBatch now im proto st msgs).1.1 (keyOf proto m)).isSome = true := by
  induction msgs with
  | nil => intro st m h; cases h
  | cons msg rest ih =>
      intro st m h
      cases msg with
      | done => cases h
      | diag m0 =>
          rcases List.mem_cons.mp h with h1 | h1
          · subst h1
            exact recvBatch_isSome_mono now im proto rest _ _
              (by rw [recvRecord_key]; rfl)
          · exact ih _ m h1

theorem sockdiagRecvLoop_mem (now : Nat) (im : InodeMap) (proto : Nat)
    (events : List RecvEvent) :
    ∀ (st : OpenSockets × PortCache) (m : InetDiagMsgM), m ∈ processedRecords events →
      ((sockdiagRecvLoop now im proto st events).1.1 (keyOf proto m)).isSome = true := by
  induction events with
  | nil => intro st m h; cases h
  | cons ev rest ih =>
      intro st m h
      cases ev with
      | zero => cases h
      | recvErr e => cases h
      | parseErr e => cases h
      | batch msgs =>
          dsimp [processedRecords] at h
          dsimp [sockdiagRecvLoop]
          by_cases hd : (recvBatch now im proto st msgs).2 = true
          · rw [if_pos hd]
            rw [if_pos (by
              have : (batchRecords msgs).2 = (recvBatch now im proto st msgs).2 := by
                clear h hd ih
                induction msgs generalizing st with
                | nil => rfl
                | cons msg rest2 ih2 =>
                    cases msg with
                    | done => rfl
                    | diag m0 => exact ih2 _
              rw [this, hd])] at h
            exact recvBatch_mem now im proto msgs st m h
          · rw [if_neg hd]
            rw [if_neg (by
              have : (batchRecords msgs).2 = (recvBatch now im proto st msgs).2 := by
                clear h hd ih
                induction msgs generalizing st with
                | nil => rfl
                | cons msg rest2 ih2 =>
                    cases msg with
                    | done => rfl
                    | diag m0 => exact ih2 _
              rw [this]; exact hd)] at h
            rcases List.mem_append.mp h with h1 | h1
            · exact sockdiagRecvLoop_isSome_mono now im proto rest _ _
                (recvBatch_mem now im proto msgs st m h1)
            · exact ih _ m h1

/-- C10: every record the receive loop processes produces an entry in the
returned sockets map under its derived key — the value written for a record
is `inodeMap[inode]`'s Go zero-value read, so a record whose inode has no
match still yields an entry, carrying `ProcessInfo{Pid=0, Name=""}` rather
than being omitted. -/
theorem C10_diag_records_all_inserted (now : Nat) (im : InodeMap) (proto : Nat)
    (events : List RecvEvent) (pc : PortCache) (st : OpenSockets × PortCache)
    (m : InetDiagMsgM) :
    ((recvRecord now im proto st m).1 (keyOf proto m) =
        some ((im m.inode).getD { Pid := 0, Name := "" })) ∧
    (m ∈ processedRecords events →
        (((sockdiagRecv now im proto events pc).1.1 (keyOf proto m)).isSome = true)) ∧
    (im m.inode = none →
      ((sockdiagRecv now im proto [RecvEvent.batch [NlMsg.diag m, NlMsg.done]] pc).1.1
          (keyOf proto m)) = some { Pid := 0, Name := "" }) := by
  refine ⟨recvRecord_key now im proto st m, ?_, ?_⟩
  · intro h
    exact sockdiagRecvLoop_mem now im proto events _ m h
  · intro h
    simp [sockdiagRecv, sockdiagRecvLoop, recvBatch, recvRecord, mapUpdate, h]

end Sniffer
